import Mathlib

/-
Verification of the geulpi-calendar-ai retraining pipeline and metrics store.

Shallow embedding of:
  * src/ml-server/pipelines/retraining_pipeline.py
      (RetrainingPipeline: _build_execution_plan, _execute_pipeline,
       _execute_task, _trigger_pipeline, _send_notifications;
       PipelineTasks.validate_data_quality)
  * src/config/monitoring.py
      (MetricsCollector: record_histogram, get_histogram_stats, _percentile,
       _make_key)

Conventions of the embedding:
  * Python dicts with string keys are association lists `List (String × _)`
    (insertion-ordered, first binding wins on lookup) or total functions
    `String → _` for defaultdicts.
  * Wall-clock values (datetime.now, durations) are not computed by the
    model; where the code threads them into outputs they are passed in as
    parameters of type ℚ.
  * A Python function that can return, raise, or exceed its asyncio timeout
    is modelled as `Nat → StateMap → AttemptOutcome`: attempt index and the
    shared pipeline_state in, one of the three outcomes out.  The attempt
    index lets one model a body whose behaviour differs between retries.
  * Exceptions that the Python code catches are represented by the
    corresponding handler branches; `asyncio.gather(..., return_exceptions=True)`
    receives only TaskResult values because `_execute_task` returns a
    TaskResult on every control path (it catches Exception and TimeoutError).
-/

/-- A Python value as stored in the shared pipeline_state / task outputs:
strings, numbers (modelled exactly as rationals), booleans, None, and
nested string-keyed dicts. -/
inductive Val where
  | str : String → Val
  | rat : ℚ → Val
  | bool : Bool → Val
  | vnone : Val
  | dict : List (String × Val) → Val

/-- A string-keyed Python dict, as an insertion-ordered association list. -/
abbrev StateMap := List (String × Val)

/-- `d.get(k)` on a dict: first binding for the key, if any. -/
def lookupVal (m : StateMap) (k : String) : Option Val :=
  (List.find? (fun p => p.1 == k) m).map (fun p => p.2)

/-- `d.get(k, default)` on a dict. -/
def dictGetD (m : StateMap) (k : String) (dflt : Val) : Val :=
  (lookupVal m k).getD dflt

/-- TaskStatus enum (retraining_pipeline.py lines 28-35). -/
inductive TaskStatus where
  | pending
  | running
  | success
  | failed
  | skipped
  | retry
deriving DecidableEq

/-- TriggerCondition enum (retraining_pipeline.py lines 37-43). -/
inductive TriggerCondition where
  | scheduled
  | dataDrift
  | performanceDegradation
  | manual
  | modelFeedback
deriving DecidableEq

/-- The `.value` string of a TriggerCondition member. -/
def triggerValue : TriggerCondition → String
  | .scheduled => "scheduled"
  | .dataDrift => "data_drift"
  | .performanceDegradation => "performance_degradation"
  | .manual => "manual"
  | .modelFeedback => "model_feedback"

/-- Outcome of one call of a task body: normal return of an output dict,
a raised exception with its message, or exceeding the asyncio timeout. -/
inductive AttemptOutcome where
  | ok : StateMap → AttemptOutcome
  | exc : String → AttemptOutcome
  | timeout : AttemptOutcome

/-- TaskConfig dataclass (retraining_pipeline.py lines 45-54).  The
`function` field is the task body, modelled per attempt; `dependencies=None`
and the `or []` at its use site collapse to the empty list. -/
structure TaskConfig where
  task_id : String
  function : Nat → StateMap → AttemptOutcome
  dependencies : List String := []
  retry_count : Nat := 3
  timeout_seconds : Nat := 3600
  on_failure : String := "fail"

/-- TaskResult dataclass (retraining_pipeline.py lines 66-75); the
wall-clock start_time/end_time fields are not modelled. -/
structure TaskResult where
  task_id : String
  status : TaskStatus
  output : StateMap
  error : Option String

/-- What one `_execute_task` call did: the TaskResult it returned and
stored, how many times it evaluated the body, and the successive backoff
sleeps (seconds) between attempts. -/
structure ExecOutcome where
  result : TaskResult
  attempts : Nat
  delays : List Nat

/-- Error message recorded when the body raises (line 316). -/
def failMsg (taskId m : String) : String :=
  "Task " ++ taskId ++ " failed: " ++ m

/-- Error message recorded on timeout (line 299). -/
def timeoutMsg (taskId : String) (secs : Nat) : String :=
  "Task " ++ taskId ++ " timed out after " ++ toString secs ++ "s"

/-- The retry loop of `_execute_task` (lines 269-331): arguments are the
current attempt index and the number of attempts still allowed after this
one (initially retry_count).  On success it returns at once; on exception
or timeout it either sleeps `2 ** attempt` and retries, or, with no
attempts left, produces the terminal Failed result. -/
def executeTaskLoop (taskId : String) (fn : Nat → StateMap → AttemptOutcome)
    (secs : Nat) (state : StateMap) : Nat → Nat → ExecOutcome
  | attempt, 0 =>
    match fn attempt state with
    | .ok out => ⟨⟨taskId, .success, out, none⟩, 1, []⟩
    | .exc m => ⟨⟨taskId, .failed, [], some (failMsg taskId m)⟩, 1, []⟩
    | .timeout => ⟨⟨taskId, .failed, [], some (timeoutMsg taskId secs)⟩, 1, []⟩
  | attempt, r + 1 =>
    match fn attempt state with
    | .ok out => ⟨⟨taskId, .success, out, none⟩, 1, []⟩
    | _ =>
      let rest := executeTaskLoop taskId fn secs state (attempt + 1) r
      ⟨rest.result, rest.attempts + 1, 2 ^ attempt :: rest.delays⟩

/-- `_execute_task` (lines 264-333): run the body with retry logic,
starting at attempt 0 with `retry_count` retries available. -/
def executeTask (cfg : TaskConfig) (state : StateMap) : ExecOutcome :=
  executeTaskLoop cfg.task_id cfg.function cfg.timeout_seconds state 0 cfg.retry_count

/-- PipelineConfig dataclass (retraining_pipeline.py lines 56-64); the
`notifications` dict is modelled as an optional association list of flags
(None ↦ `none`, the default). -/
structure PipelineConfig where
  pipeline_id : String
  model_name : String
  schedule_interval : String := "0 2 * * *"
  max_concurrent_tasks : Nat := 4
  notifications : Option (List (String × Bool)) := none

/-- The declared dependency set of a task id: `self.tasks[task_id].dependencies
or []` (lines 247-248), empty when the id is not registered. -/
def depsOf (tasks : List TaskConfig) (id : String) : List String :=
  ((tasks.find? (fun t => t.task_id == id)).map (fun t => t.dependencies)).getD []

/-- The tasks ready in one pass of the planning loop (lines 245-251): those
remaining tasks all of whose dependencies are already completed. -/
def readyTasks (tasks : List TaskConfig) (completed remaining : List String) : List String :=
  remaining.filter (fun id => (depsOf tasks id).all (fun d => completed.contains d))

/-- The while-loop of `_build_execution_plan` (lines 243-260).  The fuel
argument starts at the number of remaining tasks; each productive pass
removes at least one task, so fuel never runs out before the loop would
exit.  A pass with zero ready tasks logs and breaks, returning the plan
built so far (a partial plan). -/
def buildPlanLoop (tasks : List TaskConfig) : Nat → List String → List String → List (List String)
  | 0, _, _ => []
  | n + 1, remaining, completed =>
    if remaining.isEmpty then []
    else
      let ready := readyTasks tasks completed remaining
      if ready.isEmpty then []
      else
        ready :: buildPlanLoop tasks n
          (remaining.filter (fun id => !(ready.contains id))) (completed ++ ready)

/-- `_build_execution_plan` (lines 236-262): layered topological sort over
the registered tasks, iterated in registration order. -/
def buildExecutionPlan (tasks : List TaskConfig) : List (List String) :=
  buildPlanLoop tasks (tasks.map (fun t => t.task_id)).length
    (tasks.map (fun t => t.task_id)) []

/-- The initial pipeline_state set at lines 185-189; the wall-clock
start_time is carried as Val.vnone (its value plays no further role in the
model). -/
def initState (cfg : PipelineConfig) (trigger : TriggerCondition) : StateMap :=
  [("trigger", Val.str (triggerValue trigger)),
   ("start_time", Val.vnone),
   ("model_name", Val.str cfg.model_name)]

/-- One wave of the execution loop (lines 195-202): look each task id up in
the task table and run `_execute_task`, appending (task_id, result) to the
accumulated task_results.  The lookup cannot miss for ids produced by
`buildExecutionPlan` (they are drawn from the table's keys); the `none`
branch mirrors that no result is stored for an unknown id. -/
def runWave (tasks : List TaskConfig) (st : StateMap)
    (acc : List (String × TaskResult)) (wave : List String) : List (String × TaskResult) :=
  wave.foldl (fun acc id =>
    match tasks.find? (fun t => t.task_id == id) with
    | some cfg => acc ++ [(id, (executeTask cfg st).result)]
    | none => acc) acc

/-- The waves executed so far: fold of `runWave` over a prefix of the plan,
starting from empty task_results.  `_execute_task` returns a TaskResult on
every control path, so the `isinstance(result, Exception)` check at line 207
never fires, `pipeline_success` stays True and the early break at lines
218-221 is dead code: every wave of the plan runs. -/
def runWaves (tasks : List TaskConfig) (st : StateMap)
    (waves : List (List String)) : List (String × TaskResult) :=
  waves.foldl (runWave tasks st) []

/-- A structured completion message (`_send_notifications`, lines 335-351). -/
structure PipelineNotification where
  pipeline_id : String
  model_name : String
  status : String
  trigger : String
  duration_seconds : ℚ
  timestamp : ℚ
  error : Option String

/-- `_send_notifications` (lines 335-351): `if not self.config.notifications:
return` drops the message when the dict is None or empty; otherwise exactly
one structured message is emitted. -/
def sendNotifications (cfg : PipelineConfig) (success : Bool) (duration now : ℚ)
    (trigger : TriggerCondition) (error : Option String) : List PipelineNotification :=
  match cfg.notifications with
  | none => []
  | some [] => []
  | some (_ :: _) =>
    [⟨cfg.pipeline_id, cfg.model_name, if success then "SUCCESS" else "FAILED",
      triggerValue trigger, duration, now, error⟩]

/-- Everything observable about one `_execute_pipeline` call. -/
structure RunOutput where
  taskResults : List (String × TaskResult)
  pipelineState : StateMap
  pipelineSuccess : Bool
  notifications : List PipelineNotification

/-- `_execute_pipeline` (lines 178-234): initialise pipeline_state, build
the plan, run its waves in order against that state (the state is never
extended with task outputs — line 294 stores results in `self.task_results`
only), then send the completion notification.  `duration` and `now` stand
for the wall-clock values computed at lines 224-225 and 347. -/
def executePipeline (cfg : PipelineConfig) (tasks : List TaskConfig)
    (trigger : TriggerCondition) (duration now : ℚ) : RunOutput :=
  let st := initState cfg trigger
  let plan := buildExecutionPlan tasks
  let results := runWaves tasks st plan
  let success := true
  ⟨results, st, success, sendNotifications cfg success duration now trigger none⟩

/-- The mutable fields of a RetrainingPipeline instance that the trigger
path touches (lines 80-96). -/
structure PipelineInst where
  config : PipelineConfig
  tasks : List TaskConfig
  isRunning : Bool
  taskResults : List (String × TaskResult)
  pipelineState : StateMap

/-- `_trigger_pipeline` (lines 162-176): under the lock, a trigger arriving
while `is_running` is set returns at once (dropped, not queued); otherwise
the flag is set, the pipeline executes, and the `finally` clears the flag. -/
def triggerPipeline (inst : PipelineInst) (trigger : TriggerCondition)
    (duration now : ℚ) : PipelineInst × Option RunOutput :=
  if inst.isRunning then (inst, none)
  else
    let out := executePipeline inst.config inst.tasks trigger duration now
    ({ inst with isRunning := false, taskResults := out.taskResults,
                 pipelineState := out.pipelineState }, some out)

/-- PipelineTasks.validate_data_quality (lines 385-397): read the
collect_training_data output from the shared state, defaulting to the empty
dict, and raise ValueError when its data_quality is below 0.90. -/
def validateDataQuality (state : StateMap) : AttemptOutcome :=
  let dataInfo : StateMap :=
    match dictGetD state "collect_training_data" (Val.dict []) with
    | Val.dict d => d
    | _ => []
  let dataQuality : ℚ :=
    match dictGetD dataInfo "data_quality" (Val.rat 0) with
    | Val.rat q => q
    | _ => 0
  if dataQuality < mkRat 9 10 then
    .exc ("Data quality " ++ toString dataQuality ++ " below threshold 0.90")
  else
    .ok [("validation_passed", Val.bool true), ("quality_score", Val.rat dataQuality)]

/-- MetricsCollector (monitoring.py lines 51-58): `metrics` is the
defaultdict of per-key deques with `maxlen=max_points`, here a total
function into the list of recorded point values (a stored MetricPoint is
identified with its `value`; its wall-clock timestamp and label copy play
no role in the claims); `counters` is the defaultdict(int). -/
structure MetricsCollector where
  max_points : Nat
  metrics : String → List ℚ
  counters : String → Int

/-- A fresh collector (`__init__`, lines 54-58). -/
def initCollector (maxPoints : Nat) : MetricsCollector :=
  ⟨maxPoints, fun _ => [], fun _ => 0⟩

/-- `_make_key` (lines 109-114): the bare name when there are no labels,
otherwise name{k=v,...} with the label items sorted by key. -/
def makeKey (name : String) (labels : List (String × String)) : String :=
  if labels.isEmpty then name
  else
    name ++ "\x7b" ++ String.intercalate ","
      ((labels.insertionSort (fun a b => a.1 ≤ b.1)).map (fun p => p.1 ++ "=" ++ p.2))
      ++ "\x7d"

/-- Appending to a `deque(maxlen=cap)`: when full, the oldest element is
evicted from the front (for cap = 0 the deque stays empty). -/
def dequeAppend (cap : Nat) (xs : List ℚ) (v : ℚ) : List ℚ :=
  if xs.length + 1 ≤ cap then xs ++ [v]
  else (xs ++ [v]).drop (xs.length + 1 - cap)

/-- `record_histogram` (lines 70-77): append the value to the key's
bounded deque. -/
def recordHistogram (c : MetricsCollector) (name : String)
    (labels : List (String × String)) (value : ℚ) : MetricsCollector :=
  let key := makeKey name labels
  { c with metrics :=
      fun k => if k == key then dequeAppend c.max_points (c.metrics key) value
               else c.metrics k }

/-- `record_counter` (lines 60-63). -/
def recordCounter (c : MetricsCollector) (name : String)
    (labels : List (String × String)) (value : Int) : MetricsCollector :=
  let key := makeKey name labels
  { c with counters :=
      fun k => if k == key then c.counters key + value else c.counters k }

/-- One `record_histogram` call, as data. -/
structure HistEvent where
  name : String
  labels : List (String × String)
  value : ℚ

/-- A sequence of `record_histogram` calls against a collector. -/
def recordAll (c : MetricsCollector) (events : List HistEvent) : MetricsCollector :=
  events.foldl (fun c e => recordHistogram c e.name e.labels e.value) c

/-- The values a sequence of calls records under a given metric key, in
call order. -/
def valuesFor (key : String) (events : List HistEvent) : List ℚ :=
  (events.filter (fun e => makeKey e.name e.labels == key)).map (fun e => e.value)

/-- The last `n` elements of a list, in order. -/
def lastN (n : Nat) (xs : List ℚ) : List ℚ :=
  (xs.reverse.take n).reverse

/-- `_percentile` (lines 116-121): `values[min(index, len - 1)]` where
`index = int((percentile / 100) * len(values))`; the float product is
modelled by the exact value ⌊percentile·len/100⌋. -/
def percentileCalc (values : List ℚ) (percentile : Nat) : ℚ :=
  if values.isEmpty then 0
  else values.getD (min (percentile * values.length / 100) (values.length - 1)) 0

/-- The dict returned by `get_histogram_stats`. -/
structure HistStats where
  count : Nat
  sum : ℚ
  avg : ℚ
  p50 : ℚ
  p95 : ℚ
  p99 : ℚ
deriving DecidableEq

/-- `get_histogram_stats` (lines 89-107): the neutral dict on an empty or
absent series, otherwise count/sum/avg and the 50th/95th/99th percentiles
of the sorted values (`values.sort()` modelled by a stable sort; on
rationals any sort yields the same list). -/
def getHistogramStats (c : MetricsCollector) (name : String)
    (labels : List (String × String)) : HistStats :=
  let points := c.metrics (makeKey name labels)
  if points.isEmpty then ⟨0, 0, 0, 0, 0, 0⟩
  else
    let values := points.insertionSort (fun a b => a ≤ b)
    ⟨values.length, values.sum, values.sum / (values.length : ℚ),
     percentileCalc values 50, percentileCalc values 95, percentileCalc values 99⟩

/-- Truth value of `if not self.config.notifications` at line 337 (negated):
whether a notifications dict is present and non-empty. -/
def notifEnabled : Option (List (String × Bool)) → Bool
  | none => false
  | some [] => false
  | some (_ :: _) => true

/-! Concrete fixtures used by the claim-level theorems. -/

/-- A task body that returns an empty output dict on every attempt. -/
def okBody : Nat → StateMap → AttemptOutcome := fun _ _ => .ok []

/-- A task body that raises on every attempt. -/
def excBody : Nat → StateMap → AttemptOutcome := fun _ _ => .exc "boom"

/-- A task with retry_count = 2 whose body always raises. -/
def alwaysFailCfg : TaskConfig :=
  { task_id := "T", function := excBody, retry_count := 2 }

/-- Task A of a two-cycle: depends on B. -/
def cycTaskA : TaskConfig :=
  { task_id := "A", function := excBody, dependencies := ["B"] }

/-- Task B of a two-cycle: depends on A. -/
def cycTaskB : TaskConfig :=
  { task_id := "B", function := okBody, dependencies := ["A"] }

/-- An independent task C with no dependencies. -/
def freeTaskC : TaskConfig :=
  { task_id := "C", function := okBody }

/-- A pipeline config with notifications configured (as in
create_standard_retraining_pipeline, lines 505-511). -/
def pipeCfgNotif : PipelineConfig :=
  { pipeline_id := "m_retraining", model_name := "m",
    notifications := some [("slack", true), ("email", true)] }

/-- A pipeline config leaving `notifications` at its default None. -/
def pipeCfgNoNotif : PipelineConfig :=
  { pipeline_id := "p", model_name := "m" }

/-- A task that fails terminally on its only attempt, with
on_failure = "continue". -/
def failTaskA : TaskConfig :=
  { task_id := "A", function := excBody, retry_count := 0, on_failure := "continue" }

/-- A succeeding task that depends on the failing task A. -/
def depTaskB : TaskConfig :=
  { task_id := "B", function := okBody, dependencies := ["A"] }

/-- A root task with no dependencies that succeeds. -/
def rootTaskA : TaskConfig :=
  { task_id := "A", function := okBody }

/-- The collect_training_data body at a fixed draw: succeeds with
data_quality 0.95 = mkRat 19 20 (within the simulated 0.85-0.98 range of
lines 376-377; Python floats are modelled by the exact rationals of the
literals). -/
def collectBody : Nat → StateMap → AttemptOutcome := fun _ _ =>
  .ok [("data_size", Val.rat 10000), ("data_quality", Val.rat (mkRat 19 20)),
       ("data_path", Val.str "/tmp/training_data")]

/-- TaskConfig of collect_training_data (lines 516-520). -/
def collectCfg : TaskConfig :=
  { task_id := "collect_training_data", function := collectBody,
    timeout_seconds := 1800 }

/-- TaskConfig of validate_data_quality (lines 522-526), whose body is the
source's validate_data_quality reading the shared state. -/
def validateCfg : TaskConfig :=
  { task_id := "validate_data_quality",
    function := fun _ st => validateDataQuality st,
    dependencies := ["collect_training_data"] }

/-- An idle pipeline instance over the failing-A / dependent-B tasks. -/
def instIdle : PipelineInst :=
  { config := pipeCfgNotif, tasks := [failTaskA, depTaskB], isRunning := false,
    taskResults := [], pipelineState := [] }

/-- A pipeline instance whose run-in-progress flag is set. -/
def instBusy : PipelineInst :=
  { config := pipeCfgNotif, tasks := [freeTaskC], isRunning := true,
    taskResults := [], pipelineState := [] }

/-- A collector with three values recorded under metric "m". -/
def sampleCollector : MetricsCollector :=
  recordAll (initCollector 5) [⟨"m", [], 3⟩, ⟨"m", [], 1⟩, ⟨"m", [], 2⟩]

/-! Helper lemmas about the embedding. -/

/-- Membership and `List.contains` agree on strings. -/
theorem containsEqMem (l : List String) (x : String) : l.contains x = true ↔ x ∈ l := by
  simp [List.contains_iff_exists_mem_beq]

/-- Every result `_execute_task` produces is terminal: Success with no
error, or Failed with an error message. -/
theorem executeTaskLoopResult (taskId : String) (fn : Nat → StateMap → AttemptOutcome)
    (secs : Nat) (state : StateMap) (a r : Nat) :
    ((executeTaskLoop taskId fn secs state a r).result.status = TaskStatus.success ∧
      (executeTaskLoop taskId fn secs state a r).result.error = none) ∨
    ((executeTaskLoop taskId fn secs state a r).result.status = TaskStatus.failed ∧
      (executeTaskLoop taskId fn secs state a r).result.error ≠ none) := by
  induction r generalizing a with
  | zero =>
    simp only [executeTaskLoop]
    cases fn a state <;> simp
  | succ r ih =>
    simp only [executeTaskLoop]
    cases fn a state with
    | ok out => simp
    | exc m => exact ih (a + 1)
    | timeout => exact ih (a + 1)

/-- `executeTask` version of `executeTaskLoopResult`. -/
theorem executeTaskResult (cfg : TaskConfig) (state : StateMap) :
    ((executeTask cfg state).result.status = TaskStatus.success ∧
      (executeTask cfg state).result.error = none) ∨
    ((executeTask cfg state).result.status = TaskStatus.failed ∧
      (executeTask cfg state).result.error ≠ none) :=
  executeTaskLoopResult cfg.task_id cfg.function cfg.timeout_seconds state 0 cfg.retry_count

/-- Behaviour of the retry loop on a body that never returns normally:
all allowed attempts are used, the result is terminal Failed, and the
sleeps are 2^a, 2^(a+1), ... for the successive attempt indices. -/
theorem executeTaskLoopAllFail (taskId : String) (fn : Nat → StateMap → AttemptOutcome)
    (secs : Nat) (state : StateMap) (r a : Nat)
    (hf : ∀ i out, fn i state ≠ AttemptOutcome.ok out) :
    (executeTaskLoop taskId fn secs state a r).attempts = r + 1 ∧
    (executeTaskLoop taskId fn secs state a r).result.status = TaskStatus.failed ∧
    (executeTaskLoop taskId fn secs state a r).delays =
      (List.range' a r).map (fun i => 2 ^ i) := by
  induction r generalizing a with
  | zero =>
    simp only [executeTaskLoop]
    cases h : fn a state with
    | ok out => exact absurd h (hf a out)
    | exc m => simp
    | timeout => simp
  | succ r ih =>
    simp only [executeTaskLoop]
    cases h : fn a state with
    | ok out => exact absurd h (hf a out)
    | exc m =>
      have hr := ih (a + 1)
      refine ⟨by simp [hr.1], by simp [hr.2.1], ?_⟩
      simp only [List.range'_succ a r 1, List.map_cons]
      simp [hr.2.2]
    | timeout =>
      have hr := ih (a + 1)
      refine ⟨by simp [hr.1], by simp [hr.2.1], ?_⟩
      simp only [List.range'_succ a r 1, List.map_cons]
      simp [hr.2.2]

/-- Successive powers of two are strictly increasing, as a chain over the
mapped range. -/
theorem chainPowRange (s n : Nat) :
    List.Chain' (fun x y => x < y) ((List.range' s n).map (fun i => 2 ^ i)) := by
  induction n generalizing s with
  | zero => simp
  | succ n ih =>
    rw [List.range'_succ s n 1, List.map_cons]
    rcases n with _ | m
    · simp
    · rw [List.range'_succ (s + 1) m 1, List.map_cons]
      refine List.Chain'.cons ?_ ?_
      · have h : 0 < (2:Nat) ^ s := Nat.pos_pow_of_pos s (by norm_num)
        calc (2:Nat) ^ s < 2 ^ s + 2 ^ s := by omega
          _ = 2 ^ (s + 1) := by rw [pow_succ]; omega
      · have hc := ih (s + 1)
        rw [List.range'_succ (s + 1) m 1, List.map_cons] at hc
        exact hc

/-- C5: For every task whose body fails or times out on every attempt,
execute_task runs the body exactly retry_count + 1 times, with a strictly
increasing delay between consecutive attempts (exponential backoff 2^i),
before recording terminal status Failed. -/
theorem c5_always_failing_task_retries_with_backoff (cfg : TaskConfig) (state : StateMap)
    (hf : ∀ i out, cfg.function i state ≠ AttemptOutcome.ok out) :
    (executeTask cfg state).attempts = cfg.retry_count + 1 ∧
    (executeTask cfg state).result.status = TaskStatus.failed ∧
    (executeTask cfg state).delays = (List.range cfg.retry_count).map (fun i => 2 ^ i) ∧
    List.Chain' (fun x y => x < y) (executeTask cfg state).delays := by
  have h := executeTaskLoopAllFail cfg.task_id cfg.function cfg.timeout_seconds state
    cfg.retry_count 0 hf
  refine ⟨h.1, h.2.1, ?_, ?_⟩
  · rw [List.range_eq_range']
    exact h.2.2
  · have hd : (executeTask cfg state).delays =
        (List.range' 0 cfg.retry_count).map (fun i => 2 ^ i) := h.2.2
    rw [hd]
    exact chainPowRange 0 cfg.retry_count

/-- Witness for C5 at a concrete always-failing task with retry_count = 2:
three executions, sleeps [1, 2], strictly increasing, terminal Failed. -/
theorem c5_always_failing_task_retries_with_backoff_witness :
    (executeTask alwaysFailCfg []).attempts = 3 ∧
    (executeTask alwaysFailCfg []).result.status = TaskStatus.failed ∧
    (executeTask alwaysFailCfg []).delays = [1, 2] ∧
    List.Chain' (fun x y => x < y) (executeTask alwaysFailCfg []).delays := by
  have h := c5_always_failing_task_retries_with_backoff alwaysFailCfg []
    (fun i out hh => AttemptOutcome.noConfusion hh)
  exact ⟨h.1, h.2.1, by simpa using h.2.2.1, h.2.2.2⟩

/-- Ready tasks are drawn from the remaining tasks. -/
theorem readyTasksSubset (tasks : List TaskConfig) (completed remaining : List String)
    (id : String) (h : id ∈ readyTasks tasks completed remaining) : id ∈ remaining :=
  List.mem_of_mem_filter h

/-- A ready task has all its dependencies among the completed tasks. -/
theorem readyTasksDeps (tasks : List TaskConfig) (completed remaining : List String)
    (id : String) (h : id ∈ readyTasks tasks completed remaining) :
    ∀ d ∈ depsOf tasks id, d ∈ completed := by
  intro d hd
  have hp := List.of_mem_filter h
  have := (List.all_eq_true.mp hp) d hd
  exact (containsEqMem completed d).mp this

/-- Every id the planning loop emits comes from its remaining set. -/
theorem buildPlanLoopJoinSubset (tasks : List TaskConfig) (fuel : Nat) :
    ∀ (remaining completed : List String) (id : String),
      id ∈ (buildPlanLoop tasks fuel remaining completed).flatten → id ∈ remaining := by
  induction fuel with
  | zero => intro remaining completed id h; simp [buildPlanLoop] at h
  | succ n ih =>
    intro remaining completed id h
    simp only [buildPlanLoop] at h
    by_cases h1 : remaining.isEmpty
    · simp [h1] at h
    · rw [if_neg h1] at h
      by_cases h2 : (readyTasks tasks completed remaining).isEmpty
      · simp [h2] at h
      · rw [if_neg h2, List.flatten_cons] at h
        rcases List.mem_append.mp h with h | h
        · exact readyTasksSubset tasks completed remaining id h
        · exact List.mem_of_mem_filter (ih _ _ id h)

/-- Every id in the execution plan is the id of a registered task. -/
theorem planJoinSubset (tasks : List TaskConfig) (id : String)
    (h : id ∈ (buildExecutionPlan tasks).flatten) :
    id ∈ tasks.map (fun t => t.task_id) :=
  buildPlanLoopJoinSubset tasks _ _ _ id h

/-- Dependencies of a task emitted by the planning loop lie in the set
completed before the loop ran or in a strictly earlier emitted wave. -/
theorem buildPlanLoopDeps (tasks : List TaskConfig) (fuel : Nat) :
    ∀ (remaining completed : List String) (i : Nat) (id d : String),
      id ∈ (buildPlanLoop tasks fuel remaining completed).getD i [] →
      d ∈ depsOf tasks id →
      d ∈ completed ∨
        ∃ j < i, d ∈ (buildPlanLoop tasks fuel remaining completed).getD j [] := by
  induction fuel with
  | zero => intro remaining completed i id d h _; simp [buildPlanLoop] at h
  | succ n ih =>
    intro remaining completed i id d h hd
    simp only [buildPlanLoop] at h ⊢
    by_cases h1 : remaining.isEmpty
    · simp [h1] at h
    · rw [if_neg h1] at h ⊢
      by_cases h2 : (readyTasks tasks completed remaining).isEmpty
      · simp [h2] at h
      · rw [if_neg h2] at h ⊢
        cases i with
        | zero =>
          rw [List.getD_cons_zero] at h
          exact Or.inl (readyTasksDeps tasks completed remaining id h d hd)
        | succ i =>
          rw [List.getD_cons_succ] at h
          rcases ih _ _ i id d h hd with hc | ⟨j, hj, hmem⟩
          · rcases List.mem_append.mp hc with hc | hc
            · exact Or.inl hc
            · exact Or.inr ⟨0, Nat.succ_pos i, by rw [List.getD_cons_zero]; exact hc⟩
          · exact Or.inr ⟨j + 1, Nat.succ_lt_succ hj, by rw [List.getD_cons_succ]; exact hmem⟩

/-- In the plan built by `_build_execution_plan`, every dependency of a
task in wave i sits in a strictly earlier wave. -/
theorem planDepsEarlier (tasks : List TaskConfig) (i : Nat) (id d : String)
    (hid : id ∈ (buildExecutionPlan tasks).getD i [])
    (hd : d ∈ depsOf tasks id) :
    ∃ j < i, d ∈ (buildExecutionPlan tasks).getD j [] := by
  rcases buildPlanLoopDeps tasks _ _ _ i id d hid hd with hc | h
  · simp at hc
  · exact h

/-- An element of the j-th wave, j < i, is in the concatenation of the
first i waves. -/
theorem memTakeFlattenOfGetD (l : List (List String)) (i j : Nat) (d : String)
    (hj : j < i) (h : d ∈ l.getD j []) : d ∈ (l.take i).flatten := by
  by_cases hl : j < l.length
  · rw [List.getD_eq_getElem l [] hl] at h
    refine List.mem_flatten.mpr ⟨l[j], ?_, h⟩
    have hjt : j < (l.take i).length := by
      rw [List.length_take]; omega
    have : (l.take i)[j] = l[j] := List.getElem_take l
    rw [← this]
    exact List.getElem_mem hjt
  · rw [List.getD_eq_default l [] (by omega)] at h
    simp at h

/-- A registered id has a TaskConfig in the table. -/
theorem findTaskOfMemMap (tasks : List TaskConfig) (id : String)
    (h : id ∈ tasks.map (fun t => t.task_id)) :
    ∃ cfg, tasks.find? (fun t => t.task_id == id) = some cfg := by
  rcases List.mem_map.mp h with ⟨t, ht, hid⟩
  have hs : (tasks.find? (fun t => t.task_id == id)).isSome :=
    List.find?_isSome.mpr ⟨t, ht, by simp [hid]⟩
  exact Option.isSome_iff_exists.mp hs

/-- Keys stored by one wave: the accumulator's keys followed by the wave's
ids, provided every id is registered. -/
theorem runWaveMapFst (tasks : List TaskConfig) (st : StateMap) :
    ∀ (wave : List String) (acc : List (String × TaskResult)),
      (∀ id ∈ wave, id ∈ tasks.map (fun t => t.task_id)) →
      (runWave tasks st acc wave).map Prod.fst = acc.map Prod.fst ++ wave := by
  intro wave
  induction wave with
  | nil => intro acc _; simp [runWave]
  | cons w wave ih =>
    intro acc hids
    have hw := hids w (List.mem_cons_self w wave)
    rcases findTaskOfMemMap tasks w hw with ⟨cfg, hcfg⟩
    have hstep : runWave tasks st acc (w :: wave)
        = runWave tasks st (acc ++ [(w, (executeTask cfg st).result)]) wave := by
      simp [runWave, hcfg]
    rw [hstep, ih _ (fun id hid => hids id (List.mem_cons_of_mem w hid))]
    simp

/-- Every (id, result) pair a wave stores either was already in the
accumulator or is the result of `executeTask` on some task config. -/
theorem runWaveMemShape (tasks : List TaskConfig) (st : StateMap) :
    ∀ (wave : List String) (acc : List (String × TaskResult)) (id : String) (r : TaskResult),
      (id, r) ∈ runWave tasks st acc wave →
      (id, r) ∈ acc ∨ ∃ cfg, r = (executeTask cfg st).result := by
  intro wave
  induction wave with
  | nil => intro acc id r h; exact Or.inl (by simpa [runWave] using h)
  | cons w wave ih =>
    intro acc id r h
    cases hcfg : tasks.find? (fun t => t.task_id == w) with
    | some cfg =>
      have hstep : runWave tasks st acc (w :: wave)
          = runWave tasks st (acc ++ [(w, (executeTask cfg st).result)]) wave := by
        simp [runWave, hcfg]
      rw [hstep] at h
      rcases ih _ id r h with hmem | hr
      · rcases List.mem_append.mp hmem with hmem | hmem
        · exact Or.inl hmem
        · have heq : (id, r) = (w, (executeTask cfg st).result) := by simpa using hmem
          exact Or.inr ⟨cfg, congrArg Prod.snd heq⟩
      · exact Or.inr hr
    | none =>
      have hstep : runWave tasks st acc (w :: wave) = runWave tasks st acc wave := by
        simp [runWave, hcfg]
      rw [hstep] at h
      exact ih _ id r h

/-- Keys stored by a sequence of waves, relative to an accumulator. -/
theorem runWavesFoldFst (tasks : List TaskConfig) (st : StateMap) :
    ∀ (waves : List (List String)) (acc : List (String × TaskResult)),
      (∀ id ∈ waves.flatten, id ∈ tasks.map (fun t => t.task_id)) →
      (waves.foldl (runWave tasks st) acc).map Prod.fst = acc.map Prod.fst ++ waves.flatten := by
  intro waves
  induction waves with
  | nil => intro acc _; simp
  | cons wave waves ih =>
    intro acc hids
    rw [List.foldl_cons]
    have h2 : ∀ id ∈ waves.flatten, id ∈ tasks.map (fun t => t.task_id) := by
      intro id hid
      exact hids id (by rw [List.flatten_cons]; exact List.mem_append_right wave hid)
    rw [ih _ h2]
    have h1 : ∀ id ∈ wave, id ∈ tasks.map (fun t => t.task_id) := by
      intro id hid
      exact hids id (by rw [List.flatten_cons]; exact List.mem_append_left _ hid)
    rw [runWaveMapFst tasks st wave acc h1, List.flatten_cons, List.append_assoc]

/-- The executed task ids of a run are exactly the plan's ids, in order. -/
theorem runWavesMapFst (tasks : List TaskConfig) (st : StateMap)
    (waves : List (List String))
    (hids : ∀ id ∈ waves.flatten, id ∈ tasks.map (fun t => t.task_id)) :
    (runWaves tasks st waves).map Prod.fst = waves.flatten := by
  have h := runWavesFoldFst tasks st waves [] hids
  simpa [runWaves] using h

/-- Every stored result of a run of waves comes from `executeTask`. -/
theorem runWavesMemShape (tasks : List TaskConfig) (st : StateMap) :
    ∀ (waves : List (List String)) (acc : List (String × TaskResult)) (id : String) (r : TaskResult),
      (id, r) ∈ waves.foldl (runWave tasks st) acc →
      (id, r) ∈ acc ∨ ∃ cfg, r = (executeTask cfg st).result := by
  intro waves
  induction waves with
  | nil => intro acc id r h; exact Or.inl (by simpa using h)
  | cons wave waves ih =>
    intro acc id r h
    rw [List.foldl_cons] at h
    rcases ih _ id r h with hmem | hr
    · exact runWaveMemShape tasks st wave acc id r hmem
    · exact Or.inr hr

/-- C1 (amended): on a cyclic or missing dependency `_build_execution_plan`
does not raise — it logs, breaks, and returns the partial plan of the tasks
whose dependencies could be resolved, and the run executes exactly that
partial plan: the recorded task ids are the plan's ids in order. -/
theorem c1_pipeline_runs_exactly_the_partial_plan (cfg : PipelineConfig)
    (tasks : List TaskConfig) (trigger : TriggerCondition) (duration now : ℚ) :
    (executePipeline cfg tasks trigger duration now).taskResults.map Prod.fst =
      (buildExecutionPlan tasks).flatten := by
  have hids : ∀ id ∈ (buildExecutionPlan tasks).flatten,
      id ∈ tasks.map (fun t => t.task_id) :=
    fun id h => planJoinSubset tasks id h
  exact runWavesMapFst tasks (initState cfg trigger) (buildExecutionPlan tasks) hids

/-- C1 (counterexample): a task set with the cycle A←B←A plus an
independent task C makes `_build_execution_plan` return the partial plan
[["C"]] — no CycleError — and the pipeline executes C rather than nothing. -/
theorem c1_counterexample_cycle_partial_plan_still_runs :
    buildExecutionPlan [cycTaskA, cycTaskB, freeTaskC] = [["C"]] ∧
    (executePipeline pipeCfgNotif [cycTaskA, cycTaskB, freeTaskC]
        TriggerCondition.manual 0 0).taskResults.map Prod.fst = ["C"] :=
  ⟨rfl, rfl⟩

/-- C2: a trigger arriving while is_running is set returns at once without
running the pipeline and leaves the instance unchanged; when a run does go
ahead (flag initially clear), the flag is cleared again when it ends. -/
theorem c2_single_run_guard (inst : PipelineInst) (trigger : TriggerCondition)
    (duration now : ℚ) (h : inst.isRunning = true) :
    triggerPipeline inst trigger duration now = (inst, none) ∧
    (triggerPipeline { inst with isRunning := false } trigger duration now).1.isRunning
      = false := by
  constructor
  · simp [triggerPipeline, h]
  · simp [triggerPipeline]

/-- Witness for C2 at a concrete busy instance. -/
theorem c2_single_run_guard_witness :
    triggerPipeline instBusy TriggerCondition.manual 0 0 = (instBusy, none) ∧
    (triggerPipeline { instBusy with isRunning := false }
        TriggerCondition.manual 0 0).1.isRunning = false :=
  c2_single_run_guard instBusy TriggerCondition.manual 0 0 rfl

/-- C3 (code bug): in the standard collect → validate chain, collect
succeeds with data_quality 0.95, yet its output is never written into the
shared pipeline_state (the key is absent after the run), so the downstream
validate_data_quality reads the empty default, sees quality 0, and fails —
despite the recorded collect output holding 19/20 ≥ 0.90. -/
theorem c3_task_output_never_reaches_pipeline_state :
    (lookupVal (executePipeline pipeCfgNotif [collectCfg, validateCfg]
        TriggerCondition.manual 0 0).pipelineState "collect_training_data").isNone = true ∧
    (executePipeline pipeCfgNotif [collectCfg, validateCfg]
        TriggerCondition.manual 0 0).taskResults.map (fun p => (p.1, p.2.status)) =
      [("collect_training_data", TaskStatus.success),
       ("validate_data_quality", TaskStatus.failed)] ∧
    ∃ r, ("collect_training_data", r) ∈ (executePipeline pipeCfgNotif
        [collectCfg, validateCfg] TriggerCondition.manual 0 0).taskResults ∧
      dictGetD r.output "data_quality" Val.vnone = Val.rat (mkRat 19 20) :=
  ⟨rfl, rfl, ⟨_, List.Mem.head _, rfl⟩⟩

/-- C4 (counterexample): task A fails terminally with on_failure="continue"
and task B declares a dependency on A, yet B is executed and ends Success —
it is not marked Skipped. -/
theorem c4_counterexample_dependent_of_failed_task_runs :
    (executePipeline pipeCfgNotif [failTaskA, depTaskB]
        TriggerCondition.manual 0 0).taskResults.map (fun p => (p.1, p.2.status)) =
      [("A", TaskStatus.failed), ("B", TaskStatus.success)] ∧
    failTaskA.on_failure = "continue" ∧
    "A" ∈ depsOf [failTaskA, depTaskB] "B" :=
  ⟨rfl, rfl, by decide⟩

/-- C4 (amended): on_failure is never consulted — a terminal task failure
neither aborts the run nor skips dependents: every planned task is executed
and recorded with a terminal Success or Failed status; Skipped is never
assigned. -/
theorem c4_failed_tasks_never_abort_or_skip (cfg : PipelineConfig)
    (tasks : List TaskConfig) (trigger : TriggerCondition) (duration now : ℚ)
    (id : String) (h : id ∈ (buildExecutionPlan tasks).flatten) :
    ∃ r, (id, r) ∈ (executePipeline cfg tasks trigger duration now).taskResults ∧
      (r.status = TaskStatus.success ∨ r.status = TaskStatus.failed) := by
  have hids : ∀ x ∈ (buildExecutionPlan tasks).flatten,
      x ∈ tasks.map (fun t => t.task_id) :=
    fun x hx => planJoinSubset tasks x hx
  have hkeys := runWavesMapFst tasks (initState cfg trigger) (buildExecutionPlan tasks) hids
  have hdk : id ∈ (runWaves tasks (initState cfg trigger)
      (buildExecutionPlan tasks)).map Prod.fst := by
    rw [hkeys]; exact h
  rcases List.mem_map.mp hdk with ⟨p, hp, hfst⟩
  obtain ⟨pid, pr⟩ := p
  cases hfst
  refine ⟨pr, hp, ?_⟩
  have hp2 : (pid, pr) ∈ (buildExecutionPlan tasks).foldl
      (runWave tasks (initState cfg trigger)) [] := hp
  rcases runWavesMemShape tasks (initState cfg trigger) _ [] pid pr hp2 with habs | ⟨cfg2, hr⟩
  · simp at habs
  · rw [hr]
    rcases executeTaskResult cfg2 (initState cfg trigger) with ⟨h1, _⟩ | ⟨h1, _⟩
    · exact Or.inl h1
    · exact Or.inr h1

/-- Witness for C4 (amended): the dependent task B of the failing-A
pipeline is executed and ends in a terminal status. -/
theorem c4_failed_tasks_never_abort_or_skip_witness :
    ∃ r, ("B", r) ∈ (executePipeline pipeCfgNotif [failTaskA, depTaskB]
        TriggerCondition.manual 0 0).taskResults ∧
      (r.status = TaskStatus.success ∨ r.status = TaskStatus.failed) :=
  c4_failed_tasks_never_abort_or_skip pipeCfgNotif [failTaskA, depTaskB]
    TriggerCondition.manual 0 0 "B" (by decide)

/-- C6: each dependency of a task placed in wave i of the plan sits in a
strictly earlier wave j < i, and by the time wave i is dispatched the
barrier has settled that dependency: the results accumulated from waves
0..i-1 contain it with a terminal (Success or Failed) status. -/
theorem c6_dependencies_settle_before_task_starts (cfg : PipelineConfig)
    (tasks : List TaskConfig) (trigger : TriggerCondition) (i : Nat) (id d : String)
    (hid : id ∈ (buildExecutionPlan tasks).getD i [])
    (hd : d ∈ depsOf tasks id) :
    (∃ j < i, d ∈ (buildExecutionPlan tasks).getD j []) ∧
    ∃ r, (d, r) ∈ runWaves tasks (initState cfg trigger)
        ((buildExecutionPlan tasks).take i) ∧
      (r.status = TaskStatus.success ∨ r.status = TaskStatus.failed) := by
  obtain ⟨j, hj, hmem⟩ := planDepsEarlier tasks i id d hid hd
  refine ⟨⟨j, hj, hmem⟩, ?_⟩
  have hdmem : d ∈ ((buildExecutionPlan tasks).take i).flatten :=
    memTakeFlattenOfGetD (buildExecutionPlan tasks) i j d hj hmem
  have hids : ∀ x ∈ ((buildExecutionPlan tasks).take i).flatten,
      x ∈ tasks.map (fun t => t.task_id) := by
    intro x hx
    rcases List.mem_flatten.mp hx with ⟨s, hs, hxs⟩
    exact planJoinSubset tasks x (List.mem_flatten.mpr ⟨s, List.take_subset i _ hs, hxs⟩)
  have hkeys := runWavesMapFst tasks (initState cfg trigger) _ hids
  have hdk : d ∈ (runWaves tasks (initState cfg trigger)
      ((buildExecutionPlan tasks).take i)).map Prod.fst := by
    rw [hkeys]; exact hdmem
  rcases List.mem_map.mp hdk with ⟨p, hp, hfst⟩
  obtain ⟨pid, pr⟩ := p
  cases hfst
  refine ⟨pr, hp, ?_⟩
  have hp2 : (pid, pr) ∈ ((buildExecutionPlan tasks).take i).foldl
      (runWave tasks (initState cfg trigger)) [] := hp
  rcases runWavesMemShape tasks (initState cfg trigger) _ [] pid pr hp2 with habs | ⟨cfg2, hr⟩
  · simp at habs
  · rw [hr]
    rcases executeTaskResult cfg2 (initState cfg trigger) with ⟨h1, _⟩ | ⟨h1, _⟩
    · exact Or.inl h1
    · exact Or.inr h1

/-- Witness for C6 on the chain A → B: B sits in wave 1, its dependency A
in wave 0, and A settles terminally before wave 1 runs. -/
theorem c6_dependencies_settle_before_task_starts_witness :
    (∃ j < 1, "A" ∈ (buildExecutionPlan [rootTaskA, depTaskB]).getD j []) ∧
    ∃ r, ("A", r) ∈ runWaves [rootTaskA, depTaskB]
        (initState pipeCfgNotif TriggerCondition.manual)
        ((buildExecutionPlan [rootTaskA, depTaskB]).take 1) ∧
      (r.status = TaskStatus.success ∨ r.status = TaskStatus.failed) :=
  c6_dependencies_settle_before_task_starts pipeCfgNotif [rootTaskA, depTaskB]
    TriggerCondition.manual 1 "B" "A" (by decide) (by decide)

/-- C7 (counterexample): a run of a pipeline whose config leaves
notifications at its default None emits no completion notification at all,
not exactly one. -/
theorem c7_counterexample_unconfigured_run_emits_nothing :
    (executePipeline pipeCfgNoNotif [freeTaskC]
        TriggerCondition.manual 0 0).notifications = [] :=
  rfl

/-- C7 (amended): when the config carries a non-empty notifications map,
every run emits exactly one completion notification with the fields
pipeline_id, model_name, status, trigger, duration_seconds, timestamp and
error (none here, since no exception escapes the wave loop). -/
theorem c7_configured_run_emits_exactly_one_notification (cfg : PipelineConfig)
    (tasks : List TaskConfig) (trigger : TriggerCondition) (duration now : ℚ)
    (h : notifEnabled cfg.notifications = true) :
    (executePipeline cfg tasks trigger duration now).notifications =
      [⟨cfg.pipeline_id, cfg.model_name, "SUCCESS", triggerValue trigger,
        duration, now, none⟩] := by
  cases hc : cfg.notifications with
  | none => rw [hc] at h; simp [notifEnabled] at h
  | some l =>
    cases l with
    | nil => rw [hc] at h; simp [notifEnabled] at h
    | cons a l => simp [executePipeline, sendNotifications, hc]

/-- Witness for C7 (amended) at a configured pipeline. -/
theorem c7_configured_run_emits_exactly_one_notification_witness :
    (executePipeline pipeCfgNotif [freeTaskC]
        TriggerCondition.manual 2 5).notifications =
      [⟨"m_retraining", "m", "SUCCESS", "manual", 2, 5, none⟩] :=
  c7_configured_run_emits_exactly_one_notification pipeCfgNotif [freeTaskC]
    TriggerCondition.manual 2 5 rfl

/-- C8: a trigger on an idle pipeline always completes normally — it
returns a run output (no exception escapes), clears the flag, and every
recorded failure is surfaced only as a Failed TaskResult carrying an error
message; successes carry none. -/
theorem c8_run_never_raises_failures_surface_in_results (inst : PipelineInst)
    (trigger : TriggerCondition) (duration now : ℚ) (h : inst.isRunning = false) :
    ∃ out, (triggerPipeline inst trigger duration now).2 = some out ∧
      (triggerPipeline inst trigger duration now).1.isRunning = false ∧
      ∀ id r, (id, r) ∈ out.taskResults →
        (r.status = TaskStatus.success ∧ r.error = none) ∨
        (r.status = TaskStatus.failed ∧ r.error ≠ none) := by
  refine ⟨executePipeline inst.config inst.tasks trigger duration now, ?_, ?_, ?_⟩
  · simp [triggerPipeline, h]
  · simp [triggerPipeline, h]
  · intro id r hmem
    have hm2 : (id, r) ∈ (buildExecutionPlan inst.tasks).foldl
        (runWave inst.tasks (initState inst.config trigger)) [] := hmem
    rcases runWavesMemShape inst.tasks (initState inst.config trigger) _ [] id r hm2
      with habs | ⟨cfg2, hr⟩
    · simp at habs
    · rw [hr]
      exact executeTaskResult cfg2 (initState inst.config trigger)

/-- Witness for C8 at an idle instance whose first task always raises. -/
theorem c8_run_never_raises_failures_surface_in_results_witness :
    ∃ out, (triggerPipeline instIdle TriggerCondition.dataDrift 0 0).2 = some out ∧
      (triggerPipeline instIdle TriggerCondition.dataDrift 0 0).1.isRunning = false ∧
      ∀ id r, (id, r) ∈ out.taskResults →
        (r.status = TaskStatus.success ∧ r.error = none) ∨
        (r.status = TaskStatus.failed ∧ r.error ≠ none) :=
  c8_run_never_raises_failures_surface_in_results instIdle
    TriggerCondition.dataDrift 0 0 rfl

/-- `lastN` keeps at most n elements. -/
theorem lastN_length_le (n : Nat) (xs : List ℚ) : (lastN n xs).length ≤ n := by
  simp only [lastN, List.length_reverse, List.length_take]
  exact Nat.min_le_left n _

/-- `lastN` is the identity on lists within the bound. -/
theorem lastN_of_length_le (n : Nat) (xs : List ℚ) (h : xs.length ≤ n) :
    lastN n xs = xs := by
  simp only [lastN]
  rw [List.take_of_length_le (by simpa using h), List.reverse_reverse]

/-- `lastN` as a front drop. -/
theorem lastN_eq_drop (n : Nat) (xs : List ℚ) :
    lastN n xs = xs.drop (xs.length - n) := by
  rw [lastN, ← List.rtake_eq_reverse_take_reverse, List.rtake]

/-- Truncating the left summand to its last n elements does not change the
last n elements of an append. -/
theorem lastN_append (n : Nat) (xs ys : List ℚ) :
    lastN n (lastN n xs ++ ys) = lastN n (xs ++ ys) := by
  simp only [lastN, List.reverse_append, List.reverse_reverse]
  rw [List.take_append_eq_append_take, List.take_append_eq_append_take, List.take_take,
    Nat.min_eq_left (Nat.sub_le n _)]

/-- Appending to a bounded deque keeps exactly the most recent cap
elements. -/
theorem dequeAppend_eq_lastN (cap : Nat) (xs : List ℚ) (v : ℚ) (h : xs.length ≤ cap) :
    dequeAppend cap xs v = lastN cap (xs ++ [v]) := by
  unfold dequeAppend
  by_cases h1 : xs.length + 1 ≤ cap
  · rw [if_pos h1, lastN_of_length_le cap _ (by simp; omega)]
  · rw [if_neg h1, lastN_eq_drop]
    simp

/-- Appending to a bounded deque respects the bound. -/
theorem dequeAppend_length_le (cap : Nat) (xs : List ℚ) (v : ℚ) (h : xs.length ≤ cap) :
    (dequeAppend cap xs v).length ≤ cap := by
  rw [dequeAppend_eq_lastN cap xs v h]
  exact lastN_length_le cap _

/-- Unfolding one record_histogram call in a fold. -/
theorem recordAll_cons (c : MetricsCollector) (e : HistEvent) (es : List HistEvent) :
    recordAll c (e :: es) = recordAll (recordHistogram c e.name e.labels e.value) es := by
  simp [recordAll]

/-- Folding record_histogram calls over a collector whose series respect
the bound: the capacity is unchanged and each key's series is the last
max_points of its old content followed by the newly recorded values. -/
theorem recordAllMetrics (events : List HistEvent) :
    ∀ (c : MetricsCollector) (key : String),
      (∀ k, (c.metrics k).length ≤ c.max_points) →
      (recordAll c events).max_points = c.max_points ∧
      (recordAll c events).metrics key =
        lastN c.max_points (c.metrics key ++ valuesFor key events) := by
  induction events with
  | nil =>
    intro c key h
    refine ⟨rfl, ?_⟩
    have hv : valuesFor key [] = [] := rfl
    rw [show recordAll c [] = c from rfl, hv, List.append_nil,
      lastN_of_length_le _ _ (h key)]
  | cons e es ih =>
    intro c key h
    rw [recordAll_cons]
    have hmax : (recordHistogram c e.name e.labels e.value).max_points = c.max_points := rfl
    have hinv : ∀ k, ((recordHistogram c e.name e.labels e.value).metrics k).length ≤
        (recordHistogram c e.name e.labels e.value).max_points := by
      intro k
      rw [hmax]
      show (if k == makeKey e.name e.labels
        then dequeAppend c.max_points (c.metrics (makeKey e.name e.labels)) e.value
        else c.metrics k).length ≤ c.max_points
      by_cases hk : k == makeKey e.name e.labels
      · rw [if_pos hk]
        exact dequeAppend_length_le _ _ _ (h _)
      · rw [if_neg hk]
        exact h k
    obtain ⟨ihmax, ihmet⟩ := ih (recordHistogram c e.name e.labels e.value) key hinv
    refine ⟨by rw [ihmax, hmax], ?_⟩
    rw [ihmet, hmax]
    by_cases hk : makeKey e.name e.labels == key
    · have hke : makeKey e.name e.labels = key := eq_of_beq hk
      have hmet : (recordHistogram c e.name e.labels e.value).metrics key =
          dequeAppend c.max_points (c.metrics key) e.value := by
        show (if key == makeKey e.name e.labels
          then dequeAppend c.max_points (c.metrics (makeKey e.name e.labels)) e.value
          else c.metrics key) = dequeAppend c.max_points (c.metrics key) e.value
        rw [hke, if_pos (beq_self_eq_true key)]
      have hv : valuesFor key (e :: es) = e.value :: valuesFor key es := by
        simp [valuesFor, hk]
      rw [hmet, dequeAppend_eq_lastN _ _ _ (h key), lastN_append, hv]
      simp
    · have hmet : (recordHistogram c e.name e.labels e.value).metrics key =
          c.metrics key := by
        show (if key == makeKey e.name e.labels
          then dequeAppend c.max_points (c.metrics (makeKey e.name e.labels)) e.value
          else c.metrics key) = c.metrics key
        have hk2 : (key == makeKey e.name e.labels) = false := by
          rcases Bool.eq_false_or_eq_true (key == makeKey e.name e.labels) with h2 | h2
          · exact absurd (by rw [eq_of_beq h2]; exact beq_self_eq_true _) hk
          · exact h2
        rw [hk2]
        simp
      have hv : valuesFor key (e :: es) = valuesFor key es := by
        simp [valuesFor, hk]
      rw [hmet, hv]

/-- C9: after any sequence of record_histogram calls on a collector of
capacity max_points, every key's stored series holds at most max_points
points, and the retained points are exactly the most recently recorded
values for that key, oldest evicted first. -/
theorem c9_histogram_series_bounded_and_most_recent (cap : Nat)
    (events : List HistEvent) (key : String) :
    ((recordAll (initCollector cap) events).metrics key).length ≤ cap ∧
    (recordAll (initCollector cap) events).metrics key = lastN cap (valuesFor key events) := by
  have h := recordAllMetrics events (initCollector cap) key
    (fun k => by simp [initCollector])
  have h2 : (recordAll (initCollector cap) events).metrics key =
      lastN cap (valuesFor key events) := by
    have := h.2
    simpa [initCollector] using this
  exact ⟨by rw [h2]; exact lastN_length_le cap _, h2⟩

/-- Clamped percentile of a non-empty list is an element of the list. -/
theorem percentileMem (values : List ℚ) (p : Nat) (hne : values ≠ []) :
    percentileCalc values p ∈ values := by
  unfold percentileCalc
  rw [if_neg (by simpa [List.isEmpty_iff] using hne)]
  have hlen : 0 < values.length := List.length_pos.mpr hne
  have hidx : min (p * values.length / 100) (values.length - 1) < values.length := by omega
  rw [List.getD_eq_getElem values 0 hidx]
  exact List.getElem_mem hidx

/-- C10: get_histogram_stats is total: on an empty or absent series it
returns the neutral dict {count 0, sum 0, avg 0, p50 0, p95 0, p99 0}; on a
non-empty series the percentile index is clamped to the last element, so
for every percentile ≤ 100 the value returned (in particular p50, p95, p99)
is one of the recorded values. -/
theorem c10_histogram_stats_total_neutral_and_clamped (c : MetricsCollector)
    (name : String) (labels : List (String × String)) (p : Nat) (hp : p ≤ 100) :
    (c.metrics (makeKey name labels) = [] →
      getHistogramStats c name labels = ⟨0, 0, 0, 0, 0, 0⟩) ∧
    (c.metrics (makeKey name labels) ≠ [] →
      percentileCalc ((c.metrics (makeKey name labels)).insertionSort
          (fun a b => a ≤ b)) p ∈ c.metrics (makeKey name labels) ∧
      (getHistogramStats c name labels).p50 ∈ c.metrics (makeKey name labels) ∧
      (getHistogramStats c name labels).p95 ∈ c.metrics (makeKey name labels) ∧
      (getHistogramStats c name labels).p99 ∈ c.metrics (makeKey name labels)) := by
  constructor
  · intro h
    simp [getHistogramStats, h]
  · intro h
    have hie : (c.metrics (makeKey name labels)).isEmpty = false := by
      simpa [List.isEmpty_iff] using h
    have hsne : (c.metrics (makeKey name labels)).insertionSort (fun a b => a ≤ b) ≠ [] := by
      intro habs
      apply h
      have h0 := List.perm_insertionSort (fun a b => a ≤ b) (c.metrics (makeKey name labels))
      rw [habs] at h0
      exact (h0.symm).eq_nil
    have hmem : ∀ q : Nat, percentileCalc ((c.metrics (makeKey name labels)).insertionSort
        (fun a b => a ≤ b)) q ∈ c.metrics (makeKey name labels) := by
      intro q
      have hm := percentileMem _ q hsne
      exact ((List.perm_insertionSort (fun a b => a ≤ b)
        (c.metrics (makeKey name labels))).mem_iff).mp hm
    refine ⟨hmem p, ?_, ?_, ?_⟩ <;> simp only [getHistogramStats, hie] <;> simp <;> exact hmem _

/-- Witness for C10 on a collector holding the values 3, 1, 2 under "m":
the clamped 95th percentile and the returned p50/p95/p99 are all among the
recorded values. -/
theorem c10_histogram_stats_total_neutral_and_clamped_witness :
    percentileCalc ((sampleCollector.metrics (makeKey "m" [])).insertionSort
        (fun a b => a ≤ b)) 95 ∈ sampleCollector.metrics (makeKey "m" []) ∧
    (getHistogramStats sampleCollector "m" []).p50 ∈ sampleCollector.metrics (makeKey "m" []) ∧
    (getHistogramStats sampleCollector "m" []).p95 ∈ sampleCollector.metrics (makeKey "m" []) ∧
    (getHistogramStats sampleCollector "m" []).p99 ∈ sampleCollector.metrics (makeKey "m" []) :=
  (c10_histogram_stats_total_neutral_and_clamped sampleCollector "m" [] 95
    (by norm_num)).2 (by decide)
